import Mathlib

/-!
# Verification of navr's shortcut-store and configuration logic

A shallow embedding of the configuration/shortcut core of the `navr`
directory-navigation tool (Rust), together with theorems settling the
frozen claims about it.

Rust strings are modelled as Lean `String`; `std::collections::HashMap`
is modelled as an association list carrying the map's entries (one entry
per key; insertion replaces the value of an exactly-equal key in place,
otherwise appends).  Filesystem, environment and process effects
(`shellexpand::full`, `std::fs::canonicalize`, existence checks,
directory creation, `save()`'s disk write) are abstracted as explicit
oracle parameters or recorded in the returned outcome, so every
definition stays executable.
-/

deriving instance DecidableEq for Except

namespace Navr

/-- Rust `u8::to_ascii_lowercase` lifted to `Char`: ASCII capital letters
map to their lowercase form, every other character is unchanged. -/
def asciiLower (c : Char) : Char :=
  if 'A' ≤ c ∧ c ≤ 'Z' then Char.ofNat (c.toNat + 32) else c

/-- Models Rust `str::eq_ignore_ascii_case` on the character lists of two
strings.  (Rust compares byte-wise, but on valid UTF-8 the byte-wise
ASCII-case-insensitive comparison coincides with the character-wise one,
since every byte of a non-ASCII character is ≥ 0x80 and must match
exactly.) -/
def eqIgnoreAsciiCaseL : List Char → List Char → Bool
  | [], [] => true
  | a :: l₁, b :: l₂ => (asciiLower a == asciiLower b) && eqIgnoreAsciiCaseL l₁ l₂
  | _, _ => false

/-- Rust `str::eq_ignore_ascii_case`. -/
def eqIgnoreAsciiCase (s t : String) : Bool :=
  eqIgnoreAsciiCaseL s.toList t.toList

/-- Models Rust `char::to_lowercase` on the characters that occur in this
development: ASCII letters lower as in `to_ascii_lowercase`, the
precomposed capital `É` (U+00C9) lowers to `é` (U+00E9), and every other
character occurring here is already caseless and maps to itself. -/
def charLower (c : Char) : Char :=
  if c = 'É' then 'é' else asciiLower c

/-- Models Rust `str::to_lowercase` (character-wise; every character used
in this development lowercases to a single character). -/
def lowerStr (s : String) : String :=
  String.mk (s.toList.map charLower)

/-- `containsAux needle hay`: does `needle` occur as a contiguous
sublist of `hay`? -/
def containsAux (needle : List Char) : List Char → Bool
  | [] => List.isPrefixOf needle []
  | c :: t => List.isPrefixOf needle (c :: t) || containsAux needle t

/-- Rust `str::contains(&str)`: substring containment. -/
def strContains (hay needle : String) : Bool :=
  containsAux needle.toList hay.toList

/-- Association-list model of `HashMap<String, String>`: the first
component of each entry is the key. -/
abbrev StrMap := List (String × String)

/-- First value stored under key `k`, if any (`HashMap::get`; in the
model maps hold at most one entry per key). -/
def lookupA (m : StrMap) (k : String) : Option String :=
  match m with
  | [] => none
  | (k', v) :: rest => if k = k' then some v else lookupA rest k

/-- `HashMap::contains_key`. -/
def containsKey (m : StrMap) (k : String) : Bool :=
  (lookupA m k).isSome

/-- `HashMap::insert k v`: replaces the value of an exactly-equal
existing key, otherwise adds a new entry. -/
def insertA (m : StrMap) (k v : String) : StrMap :=
  if containsKey m k then
    m.map (fun p => if p.1 = k then (k, v) else p)
  else
    m ++ [(k, v)]

/-- `HashMap::entry(k).or_insert(v)`: adds the entry only when the key
is absent. -/
def entryOrInsert (m : StrMap) (k v : String) : StrMap :=
  if containsKey m k then m else m ++ [(k, v)]

/-- Keys of a map, in iteration order. -/
def keysOf (m : StrMap) : List String := m.map Prod.fst

/-- The crate version baked in at compile time (`env!("CARGO_PKG_VERSION")`);
its exact value is immaterial to every claim, only that it is a fixed
string. -/
def cargoPkgVersion : String := "0.1.0"

/-- `ShellConfig` (src/config/mod.rs). -/
structure ShellConfig where
  enabled : Bool
  completion_style : String
  hook_cd : Bool
  track_history : Bool
  max_history : Nat
deriving DecidableEq, Repr

/-- `ShellConfig`'s derived `Default` impl (`#[derive(Default)]`): every
field takes its type's default (`false`, `""`, `0`).  The
`#[serde(default = ...)]` attributes apply only during deserialization,
not to `Default::default()`. -/
def ShellConfig.rustDefault : ShellConfig :=
  { enabled := false, completion_style := "", hook_cd := false
    track_history := false, max_history := 0 }

/-- `BehaviorConfig` (src/config/mod.rs). -/
structure BehaviorConfig where
  confirm_overwrite : Bool
  create_missing : Bool
  follow_symlinks : Bool
  case_sensitive : Bool
  default_to_home : Bool
deriving DecidableEq, Repr

/-- `BehaviorConfig`'s derived `Default` impl: all flags `false`. -/
def BehaviorConfig.rustDefault : BehaviorConfig :=
  { confirm_overwrite := false, create_missing := false
    follow_symlinks := false, case_sensitive := false
    default_to_home := false }

/-- `WindowsConfig` (src/config/mod.rs). -/
structure WindowsConfig where
  use_windows_terminal : Bool
  use_powershell_aliases : Bool
  file_manager : Option String
deriving DecidableEq, Repr

def WindowsConfig.rustDefault : WindowsConfig :=
  { use_windows_terminal := false, use_powershell_aliases := false
    file_manager := none }

/-- `MacOSConfig` (src/config/mod.rs). -/
structure MacOSConfig where
  use_finder : Bool
  prefer_iterm2 : Bool
  file_manager : Option String
deriving DecidableEq, Repr

def MacOSConfig.rustDefault : MacOSConfig :=
  { use_finder := false, prefer_iterm2 := false, file_manager := none }

/-- `LinuxConfig` (src/config/mod.rs). -/
structure LinuxConfig where
  terminal : Option String
  desktop_env : Option String
  file_manager : Option String
deriving DecidableEq, Repr

def LinuxConfig.rustDefault : LinuxConfig :=
  { terminal := none, desktop_env := none, file_manager := none }

/-- `PlatformConfig` (src/config/mod.rs). -/
structure PlatformConfig where
  windows : WindowsConfig
  macos : MacOSConfig
  linux : LinuxConfig
deriving DecidableEq, Repr

def PlatformConfig.rustDefault : PlatformConfig :=
  { windows := WindowsConfig.rustDefault, macos := MacOSConfig.rustDefault
    linux := LinuxConfig.rustDefault }

/-- `AppConfig` (src/config/mod.rs).  `shortcuts` and `file_managers`
are `HashMap<String, String>` in the source, modelled as association
lists. -/
structure AppConfig where
  version : String
  default_file_manager : Option String
  shortcuts : StrMap
  shell : ShellConfig
  behavior : BehaviorConfig
  platform : PlatformConfig
  file_managers : StrMap
deriving DecidableEq, Repr

/-- The manual `impl Default for AppConfig` (src/config/mod.rs lines
150-162): empty shortcut map, no file-manager override, sub-structs at
their derived defaults. -/
def AppConfig.rustDefault : AppConfig :=
  { version := cargoPkgVersion
    default_file_manager := none
    shortcuts := []
    shell := ShellConfig.rustDefault
    behavior := BehaviorConfig.rustDefault
    platform := PlatformConfig.rustDefault
    file_managers := [] }

/-! ## Configuration operations (src/config/mod.rs) -/

/-- `AppConfig::get_shortcut` (src/config/mod.rs lines 233-241): exact
map lookup when `behavior.case_sensitive`, otherwise the first entry (in
iteration order) whose key equals `name` ASCII-case-insensitively. -/
def AppConfig.get_shortcut (c : AppConfig) (name : String) : Option String :=
  if c.behavior.case_sensitive then
    lookupA c.shortcuts name
  else
    (c.shortcuts.find? (fun p => eqIgnoreAsciiCase p.1 name)).map Prod.snd

/-- `AppConfig::set_shortcut` (src/config/mod.rs lines 213-221).
`shellexpand::full` followed by `std::fs::canonicalize` (falling back to
the expanded string when canonicalization fails) reads the environment
and filesystem; the composite is abstracted as the oracle `expandCanon`.
The trailing `self.save()` disk write is covered by the persistence
model of `AppConfig.load`; the in-memory effect is the exact-key map
insert below. -/
def AppConfig.set_shortcut (expandCanon : String → String)
    (c : AppConfig) (name path : String) : AppConfig :=
  { c with shortcuts := insertA c.shortcuts name (expandCanon path) }

/-- A sequence of `set_shortcut` calls, applied left to right. -/
def AppConfig.applySetShortcuts (expandCanon : String → String)
    (c : AppConfig) (l : List (String × String)) : AppConfig :=
  l.foldl (fun cfg p => cfg.set_shortcut expandCanon p.1 p.2) c

/-- `AppConfig::remove_shortcut` (src/config/mod.rs lines 224-230):
returns the updated config and whether an entry was removed (the save
happens only in that case). -/
def AppConfig.remove_shortcut (c : AppConfig) (name : String) : AppConfig × Bool :=
  let removed := containsKey c.shortcuts name
  ({ c with shortcuts := c.shortcuts.filter (fun p => ¬ p.1 = name) }, removed)

/-- Errors surfaced by the string-keyed accessors (`anyhow` errors in
the source, split by kind). -/
inductive ConfigError where
  | unknownKey
  | parseError
deriving DecidableEq, Repr

/-- Rust `str::parse::<bool>`: exactly `"true"` and `"false"` parse. -/
def parseRustBool (v : String) : Except ConfigError Bool :=
  if v = "true" then .ok true
  else if v = "false" then .ok false
  else .error .parseError

/-- Decimal digits of a character list folded into a number. -/
def digitsToNat (l : List Char) : Nat :=
  l.foldl (fun a c => a * 10 + (c.toNat - 48)) 0

/-- Rust `str::parse::<usize>` (64-bit target): an optional leading
`'+'`, then one or more ASCII digits, failing on overflow past
`usize::MAX = 2^64 - 1`. -/
def parseRustUsize (v : String) : Except ConfigError Nat :=
  let cs := v.toList
  let cs := match cs with
    | '+' :: t => t
    | _ => cs
  if cs ≠ [] ∧ cs.all Char.isDigit then
    if digitsToNat cs < 2 ^ 64 then .ok (digitsToNat cs) else .error .parseError
  else .error .parseError

/-- Rust `bool::to_string`. -/
def boolStr (b : Bool) : String := if b then "true" else "false"

/-- The fixed enumerated key set of `set_value`/`get_value` (the match
arms of src/config/mod.rs lines 284-317). -/
def configKeys : List String :=
  ["default_file_manager", "shell.enabled", "shell.hook_cd",
   "shell.track_history", "shell.max_history",
   "behavior.confirm_overwrite", "behavior.create_missing",
   "behavior.follow_symlinks", "behavior.case_sensitive",
   "behavior.default_to_home"]

/-- `AppConfig::set_value` (src/config/mod.rs lines 284-300).  The
trailing `self.save()` disk write is abstracted; the returned config is
the persisted one. -/
def AppConfig.set_value (c : AppConfig) (key value : String) :
    Except ConfigError AppConfig :=
  if key = "default_file_manager" then
    .ok { c with default_file_manager := some value }
  else if key = "shell.enabled" then
    (parseRustBool value).map fun b => { c with shell := { c.shell with enabled := b } }
  else if key = "shell.hook_cd" then
    (parseRustBool value).map fun b => { c with shell := { c.shell with hook_cd := b } }
  else if key = "shell.track_history" then
    (parseRustBool value).map fun b => { c with shell := { c.shell with track_history := b } }
  else if key = "shell.max_history" then
    (parseRustUsize value).map fun n => { c with shell := { c.shell with max_history := n } }
  else if key = "behavior.confirm_overwrite" then
    (parseRustBool value).map fun b => { c with behavior := { c.behavior with confirm_overwrite := b } }
  else if key = "behavior.create_missing" then
    (parseRustBool value).map fun b => { c with behavior := { c.behavior with create_missing := b } }
  else if key = "behavior.follow_symlinks" then
    (parseRustBool value).map fun b => { c with behavior := { c.behavior with follow_symlinks := b } }
  else if key = "behavior.case_sensitive" then
    (parseRustBool value).map fun b => { c with behavior := { c.behavior with case_sensitive := b } }
  else if key = "behavior.default_to_home" then
    (parseRustBool value).map fun b => { c with behavior := { c.behavior with default_to_home := b } }
  else .error .unknownKey

/-- `AppConfig::get_value` (src/config/mod.rs lines 303-317). -/
def AppConfig.get_value (c : AppConfig) (key : String) :
    Except ConfigError String :=
  if key = "default_file_manager" then
    .ok (c.default_file_manager.getD "")
  else if key = "shell.enabled" then .ok (boolStr c.shell.enabled)
  else if key = "shell.hook_cd" then .ok (boolStr c.shell.hook_cd)
  else if key = "shell.track_history" then .ok (boolStr c.shell.track_history)
  else if key = "shell.max_history" then .ok (Nat.repr c.shell.max_history)
  else if key = "behavior.confirm_overwrite" then .ok (boolStr c.behavior.confirm_overwrite)
  else if key = "behavior.create_missing" then .ok (boolStr c.behavior.create_missing)
  else if key = "behavior.follow_symlinks" then .ok (boolStr c.behavior.follow_symlinks)
  else if key = "behavior.case_sensitive" then .ok (boolStr c.behavior.case_sensitive)
  else if key = "behavior.default_to_home" then .ok (boolStr c.behavior.default_to_home)
  else .error .unknownKey

/-- The `for (k, v) in other { self.entry(k).or_insert(v) }` loop of
`AppConfig::merge`, folded over `other`'s iteration order. -/
def mergeInto (m : StrMap) : StrMap → StrMap
  | [] => m
  | (k, v) :: rest => mergeInto (entryOrInsert m k v) rest

/-- `AppConfig::merge` (src/config/mod.rs lines 320-335): insert-if-absent
for `shortcuts` and `file_managers`; `other.default_file_manager`
overwrites whenever it is `Some`. -/
def AppConfig.merge (c other : AppConfig) : AppConfig :=
  { c with
    shortcuts := mergeInto c.shortcuts other.shortcuts
    file_managers := mergeInto c.file_managers other.file_managers
    default_file_manager :=
      if other.default_file_manager.isSome then other.default_file_manager
      else c.default_file_manager }

/-- What `AppConfig::load` (src/config/mod.rs lines 164-176) did: the
returned value plus what, if anything, it wrote to the config file. -/
structure LoadOutcome where
  result : Except ConfigError AppConfig
  written : Option AppConfig
deriving DecidableEq, Repr

/-- `AppConfig::load` (src/config/mod.rs lines 164-176).  The filesystem
is abstracted: `configFileExists` is whether the canonical config path
exists, and `onDisk` is the outcome of `load_from_path` there (read +
TOML parse).  When the file is absent the code builds `Self::default()`
and saves it (`save`'s own IO failure is abstracted as success). -/
def AppConfig.load (configFileExists : Bool)
    (onDisk : Except ConfigError AppConfig) : LoadOutcome :=
  if configFileExists then
    { result := onDisk, written := none }
  else
    { result := .ok AppConfig.rustDefault, written := some AppConfig.rustDefault }

/-! ## Jump command (src/commands/jump.rs) -/

/-- `JumpCommand::fuzzy_find_shortcuts` (src/commands/jump.rs lines
217-229): keep exactly the entries whose lowercase alias contains the
lowercase target or vice versa. -/
def AppConfig.fuzzy_find_shortcuts (c : AppConfig) (target : String) : StrMap :=
  c.shortcuts.filter fun p =>
    strContains (lowerStr p.1) (lowerStr target) ||
    strContains (lowerStr target) (lowerStr p.1)

/-- Outcome of `JumpCommand::jump_to` (src/commands/jump.rs lines
67-103).  `output p` is the `output_path` print (`NAVR_JUMP:p`);
`createdOutput` is the create-missing branch (confirmation message, then
`output_path`); `notFound` carries the fuzzy-match suggestion list shown
before the failure. -/
inductive JumpOutcome where
  | output (p : String)
  | notADirectory (target : String)
  | createdOutput (p : String)
  | createFailed (target : String)
  | notFound (suggestions : StrMap)
  | expandError
deriving DecidableEq, Repr

/-- `JumpCommand::jump_to` (src/commands/jump.rs lines 67-103).
Filesystem and environment are abstracted: `expand` models
`shellexpand::full`, `fsExists`/`fsIsDir` model `Path::exists`/`is_dir`
on the expanded string, `createOk` models whether
`std::fs::create_dir_all` succeeds there. -/
def AppConfig.jump_to (expand : String → Except Unit String)
    (fsExists fsIsDir createOk : String → Bool)
    (c : AppConfig) (target : String) : JumpOutcome :=
  match c.get_shortcut target with
  | some path => .output path
  | none =>
    match expand target with
    | .error _ => .expandError
    | .ok expanded =>
      if fsExists expanded then
        if fsIsDir expanded then .output expanded else .notADirectory target
      else if c.behavior.create_missing then
        if createOk expanded then .createdOutput expanded else .createFailed target
      else .notFound (c.fuzzy_find_shortcuts target)

/-- Errors of `OpenCommand::resolve_path`. -/
inductive OpenError where
  | expandError
  | createFailed (target : String)
  | pathNotFound (target : String)
deriving DecidableEq, Repr

/-- `OpenCommand::resolve_path` (src/commands/open.rs lines 47-67), with
the same abstractions as `jump_to` (note: unlike `jump_to`, an existing
path is returned without an `is_dir` check). -/
def AppConfig.resolve_path (expand : String → Except Unit String)
    (fsExists createOk : String → Bool)
    (c : AppConfig) (target : String) : Except OpenError String :=
  match c.get_shortcut target with
  | some path => .ok path
  | none =>
    match expand target with
    | .error _ => .error .expandError
    | .ok expanded =>
      if fsExists expanded then .ok expanded
      else if c.behavior.create_missing then
        if createOk expanded then .ok expanded else .error (.createFailed target)
      else .error (.pathNotFound target)

/-! ## Import command (src/commands/import.rs) -/

/-- Which parser the import command hands the file contents to. -/
inductive ImportFormat where
  | json
  | toml
deriving DecidableEq, Repr

/-- Errors of the import format dispatch. -/
inductive ImportError where
  | yamlUnsupported
deriving DecidableEq, Repr

/-- An opening brace character, spelled via its code point. -/
def lbrace : Char := Char.ofNat 123

/-- `Path::extension` of a file name (the path's final component): the
portion after the last `'.'`, except that a lone leading dot (hidden
files) yields no extension. -/
def pathExtension (filename : String) : Option String :=
  match filename.toList with
  | [] => none
  | _ :: rest => (extAfterLastDot rest).map String.mk
where
  /-- The part after the last `'.'` of a character list, if any dot occurs. -/
  extAfterLastDot : List Char → Option (List Char)
    | [] => none
    | '.' :: t =>
      match extAfterLastDot t with
      | some e => some e
      | none => some t
    | _ :: t => extAfterLastDot t

/-- The content sniffing of the `_` arm (src/commands/import.rs lines
33-41): parse as JSON when the trimmed content starts with `'{'`, else
as TOML.  (`str::trim` then `starts_with('{')`; trailing trim cannot
affect the first character, and an all-whitespace content trims to the
empty string, which starts with nothing.) -/
def sniffFormat (content : String) : ImportFormat :=
  match content.toList.dropWhile Char.isWhitespace with
  | c :: _ => if c = lbrace then .json else .toml
  | [] => .toml

/-- The format dispatch of `import::execute` (src/commands/import.rs
lines 19-42): the lowercased extension, defaulted to `"toml"` when the
path has none (`unwrap_or("toml")`), selects the parser; `yaml`/`yml`
is rejected; any other extension falls back to content sniffing. -/
def detectImportFormat (filename content : String) :
    Except ImportError ImportFormat :=
  let ext := lowerStr ((pathExtension filename).getD "toml")
  if ext = "json" then .ok .json
  else if ext = "toml" then .ok .toml
  else if ext = "yaml" ∨ ext = "yml" then .error .yamlUnsupported
  else .ok (sniffFormat content)

/-! ## Platform defaults (src/config/defaults.rs) -/

/-- The compile-time target OS (`#[cfg(target_os = ...)]`). -/
inductive Platform where
  | windows
  | macos
  | linux
  | other
deriving DecidableEq, Repr

/-- The environment consulted by src/config/defaults.rs: the `dirs`
crate's well-known directories (`None` when the OS does not provide
one), existence of the conventional development directories under home,
and the Linux desktop-environment / file-manager detection results. -/
structure PlatformEnv where
  home : Option String
  desktop : Option String
  documents : Option String
  downloads : Option String
  pictures : Option String
  music : Option String
  videos : Option String
  configDir : Option String
  devExists : Bool
  projectsExists : Bool
  workspaceExists : Bool
  reposExists : Bool
  githubExists : Bool
  desktopEnv : Option String
  bestFileManager : String
deriving DecidableEq, Repr

/-- `defaults::default_shortcuts` (src/config/defaults.rs lines 6-82):
for each well-known directory that exists, insert its aliases;
`home.join("dev")` etc. are rendered with a `/` separator. -/
def default_shortcuts (e : PlatformEnv) : StrMap :=
  let m : StrMap := []
  let m := match e.home with
    | some h => insertA (insertA (insertA m "home" h) "~" h) "h" h
    | none => m
  let m := match e.desktop with
    | some d => insertA (insertA m "desktop" d) "desk" d
    | none => m
  let m := match e.documents with
    | some d => insertA (insertA m "docs" d) "documents" d
    | none => m
  let m := match e.downloads with
    | some d => insertA (insertA m "downloads" d) "dl" d
    | none => m
  let m := match e.pictures with
    | some p => insertA (insertA m "pictures" p) "pics" p
    | none => m
  let m := match e.music with
    | some p => insertA m "music" p
    | none => m
  let m := match e.videos with
    | some p => insertA m "videos" p
    | none => m
  let m := match e.configDir with
    | some p => insertA (insertA m "config" p) "cfg" p
    | none => m
  match e.home with
  | some h =>
    let m := if e.devExists then insertA m "dev" (h ++ "/dev") else m
    let m := if e.projectsExists then
        insertA (insertA m "projects" (h ++ "/projects")) "proj" (h ++ "/projects")
      else m
    let m := if e.workspaceExists then
        insertA (insertA m "workspace" (h ++ "/workspace")) "ws" (h ++ "/workspace")
      else m
    let m := if e.reposExists then insertA m "repos" (h ++ "/repos") else m
    let m := if e.githubExists then
        insertA (insertA m "github" (h ++ "/github")) "gh" (h ++ "/github")
      else m
    m
  | none => m

/-- `defaults::create_default_config` (src/config/defaults.rs lines
256-281): `AppConfig::default()` with the pre-populated shortcut map and
the per-platform tweaks. -/
def create_default_config (p : Platform) (e : PlatformEnv) : AppConfig :=
  let c := { AppConfig.rustDefault with shortcuts := default_shortcuts e }
  match p with
  | .windows =>
    { c with platform :=
        { c.platform with windows :=
            { c.platform.windows with
                use_windows_terminal := true, use_powershell_aliases := true } } }
  | .macos =>
    { c with platform :=
        { c.platform with macos := { c.platform.macos with use_finder := true } } }
  | .linux =>
    { c with platform :=
        { c.platform with linux :=
            { c.platform.linux with
                desktop_env := e.desktopEnv
                file_manager := some e.bestFileManager } } }
  | .other => c

/-! ## Serialization (src/config/mod.rs: `save`/`load_from_path` via the
`toml` crate, `to_json`/`from_json` via `serde_json`)

Both formats are modelled at the level of the structured document tree
the serde data model produces — the mapping between `AppConfig` and the
tree of tables/values — taking the text layer (printing and re-parsing
the tree) as faithful.  `null` occurs only in the JSON tree (TOML has no
null; the `toml` serializer instead omits `None` fields). -/

/-- A structured document value (JSON value / TOML value). -/
inductive CfgValue where
  | str (s : String)
  | bool (b : Bool)
  | num (n : Nat)
  | null
  | obj (fields : List (String × CfgValue))

/-- Field lookup in a document object, by name (serde deserializes
structs by field name). -/
def jLookup (fields : List (String × CfgValue)) (name : String) : Option CfgValue :=
  match fields with
  | [] => none
  | (k, v) :: rest => if name = k then some v else jLookup rest name

/-- Decode a `bool` field with a `#[serde(default = ...)]` value for a
missing field. -/
def fieldBool (fields : List (String × CfgValue)) (name : String) (dflt : Bool) :
    Option Bool :=
  match jLookup fields name with
  | none => some dflt
  | some (.bool b) => some b
  | some _ => none

/-- Decode a `String` field with a default for a missing field. -/
def fieldStr (fields : List (String × CfgValue)) (name : String) (dflt : String) :
    Option String :=
  match jLookup fields name with
  | none => some dflt
  | some (.str s) => some s
  | some _ => none

/-- Decode a `usize` field with a default for a missing field. -/
def fieldNum (fields : List (String × CfgValue)) (name : String) (dflt : Nat) :
    Option Nat :=
  match jLookup fields name with
  | none => some dflt
  | some (.num n) => some n
  | some _ => none

/-- Decode an `Option<String>` field from JSON: missing or `null` is
`None` (the field carries `#[serde(default)]`). -/
def fieldOptStrJson (fields : List (String × CfgValue)) (name : String) :
    Option (Option String) :=
  match jLookup fields name with
  | none => some none
  | some .null => some none
  | some (.str s) => some (some s)
  | some _ => none

/-- Decode an `Option<String>` field from TOML: missing is `None` (the
`toml` serializer omits `None` fields and the tree has no null). -/
def fieldOptStrToml (fields : List (String × CfgValue)) (name : String) :
    Option (Option String) :=
  match jLookup fields name with
  | none => some none
  | some (.str s) => some (some s)
  | some _ => none

/-- Encode a `HashMap<String, String>` as a document table. -/
def encodeStrMap (m : StrMap) : List (String × CfgValue) :=
  m.map fun p => (p.1, .str p.2)

/-- Decode a document table whose values must all be strings. -/
def decodeStrMap : List (String × CfgValue) → Option StrMap
  | [] => some []
  | (k, .str v) :: rest => (decodeStrMap rest).map (fun m => (k, v) :: m)
  | _ => none

/-- Decode a map-typed field (`#[serde(default)]`: missing means empty). -/
def fieldStrMap (fields : List (String × CfgValue)) (name : String) :
    Option StrMap :=
  match jLookup fields name with
  | none => some []
  | some (.obj l) => decodeStrMap l
  | some _ => none

/-- Decode a struct-typed field (`#[serde(default)]`: missing means the
field type's `Default::default()`). -/
def fieldSub {α : Type} (fields : List (String × CfgValue)) (name : String)
    (dflt : α) (dec : CfgValue → Option α) : Option α :=
  match jLookup fields name with
  | none => some dflt
  | some v => dec v

/-- Encode an optional string for the TOML tree: omitted when `None`. -/
def optFieldToml (name : String) (v : Option String) : List (String × CfgValue) :=
  match v with
  | some s => [(name, .str s)]
  | none => []

/-- Encode an optional string for the JSON tree: `null` when `None`. -/
def optFieldJson (name : String) (v : Option String) : List (String × CfgValue) :=
  match v with
  | some s => [(name, .str s)]
  | none => [(name, .null)]

/-- Serialize `ShellConfig` (field order as declared). -/
def ShellConfig.encode (s : ShellConfig) : CfgValue :=
  .obj [("enabled", .bool s.enabled),
        ("completion_style", .str s.completion_style),
        ("hook_cd", .bool s.hook_cd),
        ("track_history", .bool s.track_history),
        ("max_history", .num s.max_history)]

/-- Deserialize `ShellConfig` (per-field serde defaults as in the
source: `default_true`, `default_completion_style`, `default_max_history`). -/
def ShellConfig.decode (v : CfgValue) : Option ShellConfig :=
  match v with
  | .obj fields => do
    let enabled ← fieldBool fields "enabled" true
    let completion_style ← fieldStr fields "completion_style" "fuzzy"
    let hook_cd ← fieldBool fields "hook_cd" true
    let track_history ← fieldBool fields "track_history" true
    let max_history ← fieldNum fields "max_history" 1000
    some { enabled, completion_style, hook_cd, track_history, max_history }
  | _ => none

/-- Serialize `BehaviorConfig`. -/
def BehaviorConfig.encode (b : BehaviorConfig) : CfgValue :=
  .obj [("confirm_overwrite", .bool b.confirm_overwrite),
        ("create_missing", .bool b.create_missing),
        ("follow_symlinks", .bool b.follow_symlinks),
        ("case_sensitive", .bool b.case_sensitive),
        ("default_to_home", .bool b.default_to_home)]

/-- Deserialize `BehaviorConfig` (serde defaults `default_true` /
`default_false` per field, as in the source). -/
def BehaviorConfig.decode (v : CfgValue) : Option BehaviorConfig :=
  match v with
  | .obj fields => do
    let confirm_overwrite ← fieldBool fields "confirm_overwrite" true
    let create_missing ← fieldBool fields "create_missing" false
    let follow_symlinks ← fieldBool fields "follow_symlinks" true
    let case_sensitive ← fieldBool fields "case_sensitive" false
    let default_to_home ← fieldBool fields "default_to_home" true
    some { confirm_overwrite, create_missing, follow_symlinks,
           case_sensitive, default_to_home }
  | _ => none

/-- Serialize `WindowsConfig` to the JSON tree. -/
def WindowsConfig.encodeJson (w : WindowsConfig) : CfgValue :=
  .obj ([("use_windows_terminal", .bool w.use_windows_terminal),
         ("use_powershell_aliases", .bool w.use_powershell_aliases)]
        ++ optFieldJson "file_manager" w.file_manager)

/-- Serialize `WindowsConfig` to the TOML tree (`None` omitted). -/
def WindowsConfig.encodeToml (w : WindowsConfig) : CfgValue :=
  .obj ([("use_windows_terminal", .bool w.use_windows_terminal),
         ("use_powershell_aliases", .bool w.use_powershell_aliases)]
        ++ optFieldToml "file_manager" w.file_manager)

/-- Deserialize `WindowsConfig` from the JSON tree. -/
def WindowsConfig.decodeJson (v : CfgValue) : Option WindowsConfig :=
  match v with
  | .obj fields => do
    let use_windows_terminal ← fieldBool fields "use_windows_terminal" true
    let use_powershell_aliases ← fieldBool fields "use_powershell_aliases" true
    let file_manager ← fieldOptStrJson fields "file_manager"
    some { use_windows_terminal, use_powershell_aliases, file_manager }
  | _ => none

/-- Deserialize `WindowsConfig` from the TOML tree. -/
def WindowsConfig.decodeToml (v : CfgValue) : Option WindowsConfig :=
  match v with
  | .obj fields => do
    let use_windows_terminal ← fieldBool fields "use_windows_terminal" true
    let use_powershell_aliases ← fieldBool fields "use_powershell_aliases" true
    let file_manager ← fieldOptStrToml fields "file_manager"
    some { use_windows_terminal, use_powershell_aliases, file_manager }
  | _ => none

/-- Serialize `MacOSConfig` to the JSON tree. -/
def MacOSConfig.encodeJson (m : MacOSConfig) : CfgValue :=
  .obj ([("use_finder", .bool m.use_finder),
         ("prefer_iterm2", .bool m.prefer_iterm2)]
        ++ optFieldJson "file_manager" m.file_manager)

/-- Serialize `MacOSConfig` to the TOML tree. -/
def MacOSConfig.encodeToml (m : MacOSConfig) : CfgValue :=
  .obj ([("use_finder", .bool m.use_finder),
         ("prefer_iterm2", .bool m.prefer_iterm2)]
        ++ optFieldToml "file_manager" m.file_manager)

/-- Deserialize `MacOSConfig` from the JSON tree. -/
def MacOSConfig.decodeJson (v : CfgValue) : Option MacOSConfig :=
  match v with
  | .obj fields => do
    let use_finder ← fieldBool fields "use_finder" true
    let prefer_iterm2 ← fieldBool fields "prefer_iterm2" false
    let file_manager ← fieldOptStrJson fields "file_manager"
    some { use_finder, prefer_iterm2, file_manager }
  | _ => none

/-- Deserialize `MacOSConfig` from the TOML tree. -/
def MacOSConfig.decodeToml (v : CfgValue) : Option MacOSConfig :=
  match v with
  | .obj fields => do
    let use_finder ← fieldBool fields "use_finder" true
    let prefer_iterm2 ← fieldBool fields "prefer_iterm2" false
    let file_manager ← fieldOptStrToml fields "file_manager"
    some { use_finder, prefer_iterm2, file_manager }
  | _ => none

/-- Serialize `LinuxConfig` to the JSON tree. -/
def LinuxConfig.encodeJson (l : LinuxConfig) : CfgValue :=
  .obj (optFieldJson "terminal" l.terminal
        ++ optFieldJson "desktop_env" l.desktop_env
        ++ optFieldJson "file_manager" l.file_manager)

/-- Serialize `LinuxConfig` to the TOML tree. -/
def LinuxConfig.encodeToml (l : LinuxConfig) : CfgValue :=
  .obj (optFieldToml "terminal" l.terminal
        ++ optFieldToml "desktop_env" l.desktop_env
        ++ optFieldToml "file_manager" l.file_manager)

/-- Deserialize `LinuxConfig` from the JSON tree. -/
def LinuxConfig.decodeJson (v : CfgValue) : Option LinuxConfig :=
  match v with
  | .obj fields => do
    let terminal ← fieldOptStrJson fields "terminal"
    let desktop_env ← fieldOptStrJson fields "desktop_env"
    let file_manager ← fieldOptStrJson fields "file_manager"
    some { terminal, desktop_env, file_manager }
  | _ => none

/-- Deserialize `LinuxConfig` from the TOML tree. -/
def LinuxConfig.decodeToml (v : CfgValue) : Option LinuxConfig :=
  match v with
  | .obj fields => do
    let terminal ← fieldOptStrToml fields "terminal"
    let desktop_env ← fieldOptStrToml fields "desktop_env"
    let file_manager ← fieldOptStrToml fields "file_manager"
    some { terminal, desktop_env, file_manager }
  | _ => none

/-- Serialize `PlatformConfig` to the JSON tree. -/
def PlatformConfig.encodeJson (p : PlatformConfig) : CfgValue :=
  .obj [("windows", p.windows.encodeJson),
        ("macos", p.macos.encodeJson),
        ("linux", p.linux.encodeJson)]

/-- Serialize `PlatformConfig` to the TOML tree. -/
def PlatformConfig.encodeToml (p : PlatformConfig) : CfgValue :=
  .obj [("windows", p.windows.encodeToml),
        ("macos", p.macos.encodeToml),
        ("linux", p.linux.encodeToml)]

/-- Deserialize `PlatformConfig` from the JSON tree. -/
def PlatformConfig.decodeJson (v : CfgValue) : Option PlatformConfig :=
  match v with
  | .obj fields => do
    let windows ← fieldSub fields "windows" WindowsConfig.rustDefault WindowsConfig.decodeJson
    let macos ← fieldSub fields "macos" MacOSConfig.rustDefault MacOSConfig.decodeJson
    let linux ← fieldSub fields "linux" LinuxConfig.rustDefault LinuxConfig.decodeJson
    some { windows, macos, linux }
  | _ => none

/-- Deserialize `PlatformConfig` from the TOML tree. -/
def PlatformConfig.decodeToml (v : CfgValue) : Option PlatformConfig :=
  match v with
  | .obj fields => do
    let windows ← fieldSub fields "windows" WindowsConfig.rustDefault WindowsConfig.decodeToml
    let macos ← fieldSub fields "macos" MacOSConfig.rustDefault MacOSConfig.decodeToml
    let linux ← fieldSub fields "linux" LinuxConfig.rustDefault LinuxConfig.decodeToml
    some { windows, macos, linux }
  | _ => none

/-- `AppConfig::to_json` (src/config/mod.rs lines 338-340), at the
document-tree level: `serde_json::to_string_pretty`'s field mapping
(`None` becomes `null`). -/
def AppConfig.toJson (c : AppConfig) : CfgValue :=
  .obj ([("version", .str c.version)]
        ++ optFieldJson "default_file_manager" c.default_file_manager
        ++ [("shortcuts", .obj (encodeStrMap c.shortcuts)),
            ("shell", c.shell.encode),
            ("behavior", c.behavior.encode),
            ("platform", c.platform.encodeJson),
            ("file_managers", .obj (encodeStrMap c.file_managers))])

/-- `AppConfig::from_json` (src/config/mod.rs lines 343-345), at the
document-tree level: serde field-name lookup with each field's declared
default on a missing field. -/
def AppConfig.fromJson (v : CfgValue) : Option AppConfig :=
  match v with
  | .obj fields => do
    let version ← fieldStr fields "version" cargoPkgVersion
    let default_file_manager ← fieldOptStrJson fields "default_file_manager"
    let shortcuts ← fieldStrMap fields "shortcuts"
    let shell ← fieldSub fields "shell" ShellConfig.rustDefault ShellConfig.decode
    let behavior ← fieldSub fields "behavior" BehaviorConfig.rustDefault BehaviorConfig.decode
    let platform ← fieldSub fields "platform" PlatformConfig.rustDefault PlatformConfig.decodeJson
    let file_managers ← fieldStrMap fields "file_managers"
    some { version, default_file_manager, shortcuts, shell, behavior,
           platform, file_managers }
  | _ => none

/-- `AppConfig::save`'s serialization (src/config/mod.rs lines 190-203,
`toml::to_string_pretty`), at the document-tree level: the same field
mapping with `None` fields omitted. -/
def AppConfig.toToml (c : AppConfig) : CfgValue :=
  .obj ([("version", .str c.version)]
        ++ optFieldToml "default_file_manager" c.default_file_manager
        ++ [("shortcuts", .obj (encodeStrMap c.shortcuts)),
            ("shell", c.shell.encode),
            ("behavior", c.behavior.encode),
            ("platform", c.platform.encodeToml),
            ("file_managers", .obj (encodeStrMap c.file_managers))])

/-- `AppConfig::load_from_path`'s parse (src/config/mod.rs lines
179-187, `toml::from_str`), at the document-tree level. -/
def AppConfig.fromToml (v : CfgValue) : Option AppConfig :=
  match v with
  | .obj fields => do
    let version ← fieldStr fields "version" cargoPkgVersion
    let default_file_manager ← fieldOptStrToml fields "default_file_manager"
    let shortcuts ← fieldStrMap fields "shortcuts"
    let shell ← fieldSub fields "shell" ShellConfig.rustDefault ShellConfig.decode
    let behavior ← fieldSub fields "behavior" BehaviorConfig.rustDefault BehaviorConfig.decode
    let platform ← fieldSub fields "platform" PlatformConfig.rustDefault PlatformConfig.decodeToml
    let file_managers ← fieldStrMap fields "file_managers"
    some { version, default_file_manager, shortcuts, shell, behavior,
           platform, file_managers }
  | _ => none

/-! ## Concrete configurations and inputs used by the theorems -/

/-- A platform environment with a home directory and nothing else. -/
def demoEnv : PlatformEnv :=
  { home := some "/home/user", desktop := none, documents := none
    downloads := none, pictures := none, music := none, videos := none
    configDir := none, devExists := false, projectsExists := false
    workspaceExists := false, reposExists := false, githubExists := false
    desktopEnv := none, bestFileManager := "xdg-open" }

/-- The default config (case-insensitive) after inserting alias `"Test"`. -/
def caseDemoConfig : AppConfig :=
  AppConfig.set_shortcut id AppConfig.rustDefault "Test" "/tmp/test"

/-- A case-sensitive config holding exactly the alias `"Test"`. -/
def caseSensConfig (p : String) : AppConfig :=
  { AppConfig.rustDefault with
      behavior := { AppConfig.rustDefault.behavior with case_sensitive := true }
      shortcuts := [("Test", p)] }

/-- The default (case-insensitive) config after inserting `"Test"` and
then the case-insensitively colliding alias `"test"`. -/
def collisionConfig : AppConfig :=
  AppConfig.set_shortcut id
    (AppConfig.set_shortcut id AppConfig.rustDefault "Test" "/a") "test" "/b"

/-- Shortcuts `work`, `workspace`, `home` for the fuzzy-match example. -/
def fuzzyDemoConfig : AppConfig :=
  { AppConfig.rustDefault with
      shortcuts := [("work", "/projects/work"),
                    ("workspace", "/projects/workspace"),
                    ("home", "/home/user")] }

/-- A config whose only alias contains a non-ASCII letter. -/
def cafeConfig : AppConfig :=
  { AppConfig.rustDefault with shortcuts := [("café", "/tmp/cafe")] }

/-- A config mapping `docs` to a path different from the literal
directory `docs` in the working directory. -/
def jumpDemoConfig : AppConfig :=
  { AppConfig.rustDefault with shortcuts := [("docs", "/stored/docs")] }

/-- Merge example: the receiving config. -/
def mergeDemoA : AppConfig :=
  { AppConfig.rustDefault with
      shortcuts := [("both", "/a/both"), ("onlyA", "/a/onlyA")]
      file_managers := [("linux", "dolphin")] }

/-- Merge example: the imported config (`default_file_manager` set to
`"nautilus"`). -/
def mergeDemoB : AppConfig :=
  { AppConfig.rustDefault with
      shortcuts := [("both", "/b/both"), ("onlyB", "/b/onlyB")]
      file_managers := [("linux", "nautilus"), ("macos", "finder")]
      default_file_manager := some "nautilus" }

/-- The two-character content `{}` (JSON), spelled via code points. -/
def jsonSnippet : String := String.mk [Char.ofNat 123, Char.ofNat 125]

/-! ## Map lemmas -/

/-- A key is present exactly when it occurs among the keys. -/
theorem containsKey_iff_mem (m : StrMap) (k : String) :
    containsKey m k = true ↔ k ∈ keysOf m := by
  induction m with
  | nil => simp [containsKey, lookupA, keysOf]
  | cons p t ih =>
    by_cases hp : k = p.1
    · simp [containsKey, lookupA, keysOf, hp]
    · simp only [containsKey, lookupA, keysOf, List.map_cons, List.mem_cons,
        if_neg hp]
      rw [← keysOf, ← containsKey, ih]
      simp [hp]

/-- Keys after a `HashMap::insert`: unchanged when the key was present,
extended by the key otherwise. -/
theorem keysOf_insertA (m : StrMap) (k v : String) :
    keysOf (insertA m k v)
      = if containsKey m k then keysOf m else keysOf m ++ [k] := by
  unfold insertA
  split
  · unfold keysOf
    rw [List.map_map]
    apply List.map_congr_left
    intro p _
    by_cases hp : p.1 = k
    · simp [hp]
    · simp [hp]
  · simp [keysOf]

/-- Lookup distributes over append, first list first. -/
theorem lookupA_append (a b : StrMap) (k : String) :
    lookupA (a ++ b) k = (lookupA a k).or (lookupA b k) := by
  induction a with
  | nil => simp [lookupA]
  | cons p t ih =>
    by_cases hp : k = p.1
    · simp [lookupA, hp]
    · simp [lookupA, hp, ih]

/-- Replacing every entry with key `k` leaves other lookups alone and
rewrites `k`'s value when present. -/
theorem lookupA_replace (m : StrMap) (k v : String) :
    lookupA (m.map fun p => if p.1 = k then (k, v) else p) k
      = if containsKey m k then some v else none := by
  induction m with
  | nil => simp [lookupA, containsKey]
  | cons p t ih =>
    rw [List.map_cons]
    by_cases hp : p.1 = k
    · rw [if_pos hp]
      simp [lookupA, containsKey, hp.symm]
    · rw [if_neg hp]
      have hk : ¬ k = p.1 := fun h => hp h.symm
      simp [lookupA, containsKey, hk, ih]

/-- `HashMap::insert` stores the value under the inserted key. -/
theorem lookupA_insertA_self (m : StrMap) (k v : String) :
    lookupA (insertA m k v) k = some v := by
  unfold insertA
  split
  · rw [lookupA_replace, if_pos (by assumption)]
  · rename_i h
    rw [lookupA_append]
    have : lookupA m k = none := by
      cases hl : lookupA m k with
      | none => rfl
      | some x => exact absurd (by simp [containsKey, hl]) h
    simp [this, lookupA]

/-! ## C4 — lookup follows the configured case policy -/

/-- C4: after inserting alias `"Test"` with `case_sensitive = false`,
looking up `"test"`, `"TEST"` and `"Test"` all return the stored path;
with `case_sensitive = true` and stored key `"Test"`, looking up any
other name (in particular any other case variant) returns nothing. -/
theorem C4_get_shortcut_case_policy :
    (caseDemoConfig.get_shortcut "test" = some "/tmp/test" ∧
     caseDemoConfig.get_shortcut "TEST" = some "/tmp/test" ∧
     caseDemoConfig.get_shortcut "Test" = some "/tmp/test") ∧
    ∀ (p name : String), name ≠ "Test" →
      (caseSensConfig p).get_shortcut name = none := by
  constructor
  · exact ⟨by decide, by decide, by decide⟩
  · intro p name h
    simp [caseSensConfig, AppConfig.get_shortcut, lookupA, h]

/-- C4 witness: the case-sensitive half at the variant `"test"`. -/
theorem C4_get_shortcut_case_policy_witness :
    ("test" : String) ≠ "Test" ∧
    (caseSensConfig "/tmp/test").get_shortcut "test" = none :=
  ⟨by decide, C4_get_shortcut_case_policy.2 "/tmp/test" "test" (by decide)⟩

/-! ## C5 — fuzzy_find is the bidirectional substring test -/

/-- C5: `fuzzy_find_shortcuts` returns exactly the entries whose
lowercase alias contains the lowercase target or whose lowercase target
contains the lowercase alias; on shortcuts `work`, `workspace`, `home`
the query `"wo"` returns exactly `work` and `workspace`. -/
theorem C5_fuzzy_find_bidirectional_substring :
    (∀ (cfg : AppConfig) (target : String) (p : String × String),
        p ∈ cfg.fuzzy_find_shortcuts target ↔
          p ∈ cfg.shortcuts ∧
            (strContains (lowerStr p.1) (lowerStr target) = true ∨
             strContains (lowerStr target) (lowerStr p.1) = true)) ∧
    keysOf (fuzzyDemoConfig.fuzzy_find_shortcuts "wo")
      = ["work", "workspace"] := by
  constructor
  · intro cfg target p
    simp [AppConfig.fuzzy_find_shortcuts, List.mem_filter]
  · decide

/-! ## C10 — case-insensitive lookup is ASCII-only, fuzzy_find is not -/

/-- C10: with `case_sensitive = false` and stored alias `"café"`, the
query `"CAFÉ"` (differing also in the non-ASCII letter's case) does not
match `get_shortcut`, while `"Café"` (differing only in ASCII case)
does; `fuzzy_find_shortcuts`, which lowercases with full case folding,
still matches `"CAFÉ"`. -/
theorem C10_ascii_only_case_insensitivity :
    cafeConfig.behavior.case_sensitive = false ∧
    cafeConfig.get_shortcut "CAFÉ" = none ∧
    cafeConfig.get_shortcut "Café" = some "/tmp/cafe" ∧
    keysOf (cafeConfig.fuzzy_find_shortcuts "CAFÉ") = ["café"] := by
  decide

/-! ## C2 — case-insensitive key uniqueness is NOT enforced on insert -/

/-- C2 counterexample: with `case_sensitive = false`, inserting `"Test"`
and then `"test"` leaves TWO stored keys that are equal under
ASCII-case-insensitive comparison — the colliding insert does not
overwrite. -/
theorem C2_counterexample_case_collision :
    collisionConfig.behavior.case_sensitive = false ∧
    keysOf collisionConfig.shortcuts = ["Test", "test"] ∧
    eqIgnoreAsciiCase "Test" "test" = true ∧
    lookupA collisionConfig.shortcuts "Test" = some "/a" ∧
    lookupA collisionConfig.shortcuts "test" = some "/b" := by
  decide

/-- C2 (amended): `set_shortcut` keys the map by the exact alias:
after any sequence of insertions the stored keys stay unique under
EXACT comparison (an exactly-equal alias overwrites in place), but a
merely case-insensitive collision adds a second key. -/
theorem C2_amended_exact_uniqueness :
    (∀ (expandCanon : String → String) (cfg : AppConfig)
        (l : List (String × String)),
        (keysOf cfg.shortcuts).Nodup →
        (keysOf (cfg.applySetShortcuts expandCanon l).shortcuts).Nodup) ∧
    (∀ (expandCanon : String → String) (cfg : AppConfig) (name path : String),
        lookupA (cfg.set_shortcut expandCanon name path).shortcuts name
          = some (expandCanon path) ∧
        (containsKey cfg.shortcuts name = true →
          keysOf (cfg.set_shortcut expandCanon name path).shortcuts
            = keysOf cfg.shortcuts)) := by
  constructor
  · intro expandCanon cfg l
    induction l generalizing cfg with
    | nil => intro h; exact h
    | cons p t ih =>
      intro h
      apply ih
      simp only [AppConfig.set_shortcut, keysOf_insertA]
      split
      · exact h
      · rename_i hc
        have hnp : p.1 ∉ keysOf cfg.shortcuts :=
          fun hm => hc ((containsKey_iff_mem _ _).mpr hm)
        simp [List.nodup_append, h, hnp]
  · intro expandCanon cfg name path
    exact ⟨lookupA_insertA_self _ _ _, fun h => by
      simp [AppConfig.set_shortcut, keysOf_insertA, h]⟩

/-- C2 witness: starting from the empty default map, the two-element
insertion sequence of the counterexample still has exactly-unique keys. -/
theorem C2_amended_exact_uniqueness_witness :
    (keysOf (AppConfig.applySetShortcuts id AppConfig.rustDefault
        [("Test", "/a"), ("test", "/b")]).shortcuts).Nodup :=
  C2_amended_exact_uniqueness.1 id AppConfig.rustDefault
    [("Test", "/a"), ("test", "/b")] (by decide)

/-! ## C6 — shortcut lookup precedes direct-path interpretation -/

/-- C6: whenever the target resolves as a shortcut, both `jump_to` and
the open command's `resolve_path` return the shortcut's stored path —
for every filesystem, in particular one where a same-named directory
exists in the working directory. -/
theorem C6_shortcut_before_direct_path :
    ∀ (expand : String → Except Unit String)
      (fsExists fsIsDir createOk : String → Bool)
      (cfg : AppConfig) (target path : String),
      cfg.get_shortcut target = some path →
      cfg.jump_to expand fsExists fsIsDir createOk target = .output path ∧
      cfg.resolve_path expand fsExists createOk target = .ok path := by
  intro expand fsExists fsIsDir createOk cfg target path h
  constructor
  · simp [AppConfig.jump_to, h]
  · simp [AppConfig.resolve_path, h]

/-- C6 witness: alias `docs` stored as `/stored/docs` while the
filesystem also has a directory literally named `docs`; resolution
returns the stored path. -/
theorem C6_shortcut_before_direct_path_witness :
    jumpDemoConfig.get_shortcut "docs" = some "/stored/docs" ∧
    jumpDemoConfig.jump_to (fun s => .ok s) (fun _ => true) (fun _ => true)
        (fun _ => true) "docs" = .output "/stored/docs" ∧
    jumpDemoConfig.resolve_path (fun s => .ok s) (fun _ => true)
        (fun _ => true) "docs" = .ok "/stored/docs" :=
  ⟨by decide,
   (C6_shortcut_before_direct_path (fun s => .ok s) (fun _ => true)
      (fun _ => true) (fun _ => true) jumpDemoConfig "docs" "/stored/docs"
      (by decide)).1,
   (C6_shortcut_before_direct_path (fun s => .ok s) (fun _ => true)
      (fun _ => true) (fun _ => true) jumpDemoConfig "docs" "/stored/docs"
      (by decide)).2⟩

/-! ## C3 — merge semantics -/

/-- `entry(k).or_insert(v)` affects a lookup only when the key was
absent and is the inserted one. -/
theorem lookupA_entryOrInsert (m : StrMap) (k v k' : String) :
    lookupA (entryOrInsert m k v) k'
      = (lookupA m k').or (if k' = k ∧ containsKey m k = false then some v else none) := by
  unfold entryOrInsert
  split
  · rename_i h
    simp [h]
  · rename_i h
    rw [lookupA_append]
    by_cases hk : k' = k
    · simp only [hk, lookupA, if_pos rfl]
      simp [Bool.not_eq_true] at h
      simp [h]
    · simp [lookupA, hk]

/-- The merge loop: a lookup in the merged map is the original lookup,
falling back to the first matching entry of the merged-in list. -/
theorem lookupA_mergeInto (os : StrMap) (m : StrMap) (k : String) :
    lookupA (mergeInto m os) k = (lookupA m k).or (lookupA os k) := by
  induction os generalizing m with
  | nil => simp [mergeInto, lookupA]
  | cons p t ih =>
    simp only [mergeInto, ih, lookupA_entryOrInsert, lookupA]
    by_cases hk : k = p.1
    · by_cases hc : containsKey m p.1 = false
      · simp [hk, hc, Option.or_assoc]
      · have : containsKey m p.1 = true := by
          revert hc; cases containsKey m p.1 <;> simp
        obtain ⟨w, hw⟩ := Option.isSome_iff_exists.mp (by simpa [containsKey] using this)
        simp [hk, hc, hw]
    · simp [hk, Option.or_assoc]

/-- C3: merge keeps the receiving config's path for every alias it
already has, adds the imported config's entry for every alias only
there, applies the same rule to `file_managers`, and takes the imported
`default_file_manager` whenever it is present. -/
theorem C3_merge_insert_if_absent :
    ∀ (A B : AppConfig),
      (∀ k, containsKey A.shortcuts k = true →
        lookupA (A.merge B).shortcuts k = lookupA A.shortcuts k) ∧
      (∀ k, containsKey A.shortcuts k = false →
        lookupA (A.merge B).shortcuts k = lookupA B.shortcuts k) ∧
      (∀ k, containsKey A.file_managers k = true →
        lookupA (A.merge B).file_managers k = lookupA A.file_managers k) ∧
      (∀ k, containsKey A.file_managers k = false →
        lookupA (A.merge B).file_managers k = lookupA B.file_managers k) ∧
      (B.default_file_manager.isSome = true →
        (A.merge B).default_file_manager = B.default_file_manager) ∧
      (B.default_file_manager = none →
        (A.merge B).default_file_manager = A.default_file_manager) := by
  intro A B
  refine ⟨?_, ?_, ?_, ?_, ?_, ?_⟩
  · intro k h
    obtain ⟨w, hw⟩ := Option.isSome_iff_exists.mp (by simpa [containsKey] using h)
    simp [AppConfig.merge, lookupA_mergeInto, hw]
  · intro k h
    have hnone : lookupA A.shortcuts k = none := by
      revert h; unfold containsKey; cases lookupA A.shortcuts k <;> simp
    simp [AppConfig.merge, lookupA_mergeInto, hnone]
  · intro k h
    obtain ⟨w, hw⟩ := Option.isSome_iff_exists.mp (by simpa [containsKey] using h)
    simp [AppConfig.merge, lookupA_mergeInto, hw]
  · intro k h
    have hnone : lookupA A.file_managers k = none := by
      revert h; unfold containsKey; cases lookupA A.file_managers k <;> simp
    simp [AppConfig.merge, lookupA_mergeInto, hnone]
  · intro h
    simp [AppConfig.merge, h]
  · intro h
    simp [AppConfig.merge, h]

/-- C3 witness: the merge example — `both` keeps A's path, `onlyB`
arrives from B, the `linux` file manager keeps A's entry, and
`default_file_manager` becomes B's `"nautilus"` over A's `None`. -/
theorem C3_merge_insert_if_absent_witness :
    lookupA (mergeDemoA.merge mergeDemoB).shortcuts "both"
        = lookupA mergeDemoA.shortcuts "both" ∧
    lookupA (mergeDemoA.merge mergeDemoB).shortcuts "onlyB"
        = lookupA mergeDemoB.shortcuts "onlyB" ∧
    lookupA (mergeDemoA.merge mergeDemoB).file_managers "linux"
        = lookupA mergeDemoA.file_managers "linux" ∧
    mergeDemoA.default_file_manager = none ∧
    (mergeDemoA.merge mergeDemoB).default_file_manager = some "nautilus" :=
  ⟨(C3_merge_insert_if_absent mergeDemoA mergeDemoB).1 "both" (by decide),
   (C3_merge_insert_if_absent mergeDemoA mergeDemoB).2.1 "onlyB" (by decide),
   (C3_merge_insert_if_absent mergeDemoA mergeDemoB).2.2.1 "linux" (by decide),
   by decide,
   by rw [(C3_merge_insert_if_absent mergeDemoA mergeDemoB).2.2.2.2.1 (by decide)]; decide⟩

/-! ## C1 — first-run load does NOT pre-populate shortcuts -/

/-- C1 counterexample: with the config file absent, `load` returns and
persists `AppConfig::default()`, whose shortcut map is empty — in an
environment whose home directory exists the alias `"home"` is missing
from the loaded document, while `create_default_config` (used only by
`config reset`) would contain it. -/
theorem C1_counterexample_no_prepopulation :
    (AppConfig.load false (.error .parseError)).result
        = .ok AppConfig.rustDefault ∧
    AppConfig.rustDefault.shortcuts = [] ∧
    lookupA AppConfig.rustDefault.shortcuts "home" = none ∧
    demoEnv.home = some "/home/user" ∧
    lookupA (create_default_config .linux demoEnv).shortcuts "home"
        = some "/home/user" := by
  decide

/-- C1 (amended): on first run (canonical config file absent), `load`
constructs `AppConfig::default()` — whose shortcuts mapping is empty,
NOT pre-populated with the well-known directory aliases — persists it,
and returns it without error; the pre-populated defaults live only in
`create_default_config`, which the loading path never calls. -/
theorem C1_amended_first_run_default :
    ∀ (onDisk : Except ConfigError AppConfig),
      AppConfig.load false onDisk
        = { result := .ok AppConfig.rustDefault
            written := some AppConfig.rustDefault } ∧
      AppConfig.rustDefault.shortcuts = [] := by
  intro onDisk
  exact ⟨rfl, rfl⟩

/-! ## C7 — the string-keyed accessors -/

/-- A successfully parsed Rust bool renders back to its input string. -/
theorem parseRustBool_roundtrip (v : String) (b : Bool) :
    parseRustBool v = .ok b → boolStr b = v := by
  unfold parseRustBool
  by_cases h1 : v = "true"
  · simp [h1]
    intro h
    simp [← h, boolStr]
  · by_cases h2 : v = "false"
    · simp [h1, h2]
      intro h
      simp [← h, boolStr]
    · simp [h1, h2]

/-- C7 counterexample: `"007"` is a well-formed value for
`shell.max_history` (it parses), yet reading the key back yields the
canonical rendering `"7"`, not `"007"`. -/
theorem C7_counterexample_noncanonical_number :
    parseRustUsize "007" = .ok 7 ∧
    AppConfig.set_value AppConfig.rustDefault "shell.max_history" "007"
      = .ok { AppConfig.rustDefault with
                shell := { AppConfig.rustDefault.shell with max_history := 7 } } ∧
    AppConfig.get_value
        { AppConfig.rustDefault with
            shell := { AppConfig.rustDefault.shell with max_history := 7 } }
        "shell.max_history" = .ok "7" ∧
    ("7" : String) ≠ "007" := by
  refine ⟨by decide, ?_, by decide, by decide⟩
  decide

/-- C7 (amended): `set_value` and `get_value` succeed exactly on the
fixed enumerated key set (any other key fails with the unknown-key
error); when `set_value key v` succeeds, `get_value key` returns `v`
itself for every key except `shell.max_history`, whose value reads back
as the canonical decimal rendering of the parsed number (equal to `v`
for canonical inputs, but e.g. `"007"` reads back as `"7"`). -/
theorem C7_amended_fixed_keys_roundtrip :
    ∀ (c : AppConfig) (key value : String),
      (key ∉ configKeys →
        c.set_value key value = .error .unknownKey ∧
        c.get_value key = .error .unknownKey) ∧
      (∀ c', c.set_value key value = .ok c' →
        (key ≠ "shell.max_history" → c'.get_value key = .ok value) ∧
        (key = "shell.max_history" →
          ∃ n, parseRustUsize value = .ok n ∧
            c'.get_value key = .ok (Nat.repr n))) := by
  intro c key value
  constructor
  · intro hk
    simp only [configKeys, List.mem_cons, List.not_mem_nil, or_false,
      not_or] at hk
    obtain ⟨h1, h2, h3, h4, h5, h6, h7, h8, h9, h10⟩ := hk
    constructor
    · simp [AppConfig.set_value, h1, h2, h3, h4, h5, h6, h7, h8, h9, h10]
    · simp [AppConfig.get_value, h1, h2, h3, h4, h5, h6, h7, h8, h9, h10]
  · intro c' hok
    by_cases h1 : key = "default_file_manager"
    case pos =>
      subst h1
      simp only [AppConfig.set_value, String.reduceEq, if_true, if_false,
        Except.ok.injEq] at hok
      subst hok
      refine ⟨fun _ => ?_, fun habs => absurd habs (by decide)⟩
      simp [AppConfig.get_value, String.reduceEq]
    by_cases h2 : key = "shell.enabled"
    case pos =>
      subst h2
      simp only [AppConfig.set_value, String.reduceEq, if_true, if_false] at hok
      cases hb : parseRustBool value with
      | error e => rw [hb] at hok; simp [Except.map] at hok
      | ok b =>
        rw [hb] at hok
        simp only [Except.map, Except.ok.injEq] at hok
        subst hok
        refine ⟨fun _ => ?_, fun habs => absurd habs (by decide)⟩
        simp [AppConfig.get_value, String.reduceEq,
          parseRustBool_roundtrip value b hb]
    by_cases h3 : key = "shell.hook_cd"
    case pos =>
      subst h3
      simp only [AppConfig.set_value, String.reduceEq, if_true, if_false] at hok
      cases hb : parseRustBool value with
      | error e => rw [hb] at hok; simp [Except.map] at hok
      | ok b =>
        rw [hb] at hok
        simp only [Except.map, Except.ok.injEq] at hok
        subst hok
        refine ⟨fun _ => ?_, fun habs => absurd habs (by decide)⟩
        simp [AppConfig.get_value, String.reduceEq,
          parseRustBool_roundtrip value b hb]
    by_cases h4 : key = "shell.track_history"
    case pos =>
      subst h4
      simp only [AppConfig.set_value, String.reduceEq, if_true, if_false] at hok
      cases hb : parseRustBool value with
      | error e => rw [hb] at hok; simp [Except.map] at hok
      | ok b =>
        rw [hb] at hok
        simp only [Except.map, Except.ok.injEq] at hok
        subst hok
        refine ⟨fun _ => ?_, fun habs => absurd habs (by decide)⟩
        simp [AppConfig.get_value, String.reduceEq,
          parseRustBool_roundtrip value b hb]
    by_cases h5 : key = "shell.max_history"
    case pos =>
      subst h5
      simp only [AppConfig.set_value, String.reduceEq, if_true, if_false] at hok
      cases hn : parseRustUsize value with
      | error e => rw [hn] at hok; simp [Except.map] at hok
      | ok n =>
        rw [hn] at hok
        simp only [Except.map, Except.ok.injEq] at hok
        subst hok
        refine ⟨fun habs => absurd rfl habs, fun _ => ⟨n, rfl, ?_⟩⟩
        simp [AppConfig.get_value, String.reduceEq]
    by_cases h6 : key = "behavior.confirm_overwrite"
    case pos =>
      subst h6
      simp only [AppConfig.set_value, String.reduceEq, if_true, if_false] at hok
      cases hb : parseRustBool value with
      | error e => rw [hb] at hok; simp [Except.map] at hok
      | ok b =>
        rw [hb] at hok
        simp only [Except.map, Except.ok.injEq] at hok
        subst hok
        refine ⟨fun _ => ?_, fun habs => absurd habs (by decide)⟩
        simp [AppConfig.get_value, String.reduceEq,
          parseRustBool_roundtrip value b hb]
    by_cases h7 : key = "behavior.create_missing"
    case pos =>
      subst h7
      simp only [AppConfig.set_value, String.reduceEq, if_true, if_false] at hok
      cases hb : parseRustBool value with
      | error e => rw [hb] at hok; simp [Except.map] at hok
      | ok b =>
        rw [hb] at hok
        simp only [Except.map, Except.ok.injEq] at hok
        subst hok
        refine ⟨fun _ => ?_, fun habs => absurd habs (by decide)⟩
        simp [AppConfig.get_value, String.reduceEq,
          parseRustBool_roundtrip value b hb]
    by_cases h8 : key = "behavior.follow_symlinks"
    case pos =>
      subst h8
      simp only [AppConfig.set_value, String.reduceEq, if_true, if_false] at hok
      cases hb : parseRustBool value with
      | error e => rw [hb] at hok; simp [Except.map] at hok
      | ok b =>
        rw [hb] at hok
        simp only [Except.map, Except.ok.injEq] at hok
        subst hok
        refine ⟨fun _ => ?_, fun habs => absurd habs (by decide)⟩
        simp [AppConfig.get_value, String.reduceEq,
          parseRustBool_roundtrip value b hb]
    by_cases h9 : key = "behavior.case_sensitive"
    case pos =>
      subst h9
      simp only [AppConfig.set_value, String.reduceEq, if_true, if_false] at hok
      cases hb : parseRustBool value with
      | error e => rw [hb] at hok; simp [Except.map] at hok
      | ok b =>
        rw [hb] at hok
        simp only [Except.map, Except.ok.injEq] at hok
        subst hok
        refine ⟨fun _ => ?_, fun habs => absurd habs (by decide)⟩
        simp [AppConfig.get_value, String.reduceEq,
          parseRustBool_roundtrip value b hb]
    by_cases h10 : key = "behavior.default_to_home"
    case pos =>
      subst h10
      simp only [AppConfig.set_value, String.reduceEq, if_true, if_false] at hok
      cases hb : parseRustBool value with
      | error e => rw [hb] at hok; simp [Except.map] at hok
      | ok b =>
        rw [hb] at hok
        simp only [Except.map, Except.ok.injEq] at hok
        subst hok
        refine ⟨fun _ => ?_, fun habs => absurd habs (by decide)⟩
        simp [AppConfig.get_value, String.reduceEq,
          parseRustBool_roundtrip value b hb]
    simp [AppConfig.set_value, h1, h2, h3, h4, h5, h6, h7, h8, h9, h10] at hok

/-- C7 witness: `behavior.confirm_overwrite` set to `"false"` reads back
`"false"`; `bogus.key` fails with the unknown-key error. -/
theorem C7_amended_fixed_keys_roundtrip_witness :
    ("bogus.key" : String) ∉ configKeys ∧
    AppConfig.set_value AppConfig.rustDefault "bogus.key" "x"
      = .error .unknownKey ∧
    AppConfig.set_value AppConfig.rustDefault "behavior.confirm_overwrite"
        "false" = .ok AppConfig.rustDefault ∧
    AppConfig.get_value AppConfig.rustDefault "behavior.confirm_overwrite"
      = .ok "false" :=
  ⟨by decide,
   ((C7_amended_fixed_keys_roundtrip AppConfig.rustDefault "bogus.key" "x").1
      (by decide)).1,
   by decide,
   ((C7_amended_fixed_keys_roundtrip AppConfig.rustDefault
        "behavior.confirm_overwrite" "false").2 AppConfig.rustDefault
      (by decide)).1 (by decide)⟩

/-! ## C8 — import format detection -/

/-- C8 counterexample: a file whose name has NO extension is parsed as
TOML (`unwrap_or("toml")`), never content-sniffed — even when its
content is the JSON document `{}`, which sniffing would classify as
JSON. -/
theorem C8_counterexample_missing_extension :
    pathExtension "navrconfig" = none ∧
    sniffFormat jsonSnippet = .json ∧
    detectImportFormat "navrconfig" jsonSnippet = .ok .toml := by
  decide

/-- C8 (amended): the lowercased extension `json` or `toml` selects that
parser directly, `yaml`/`yml` is rejected as unsupported, any OTHER
present extension falls back to content sniffing (leading `{` after
trimming means JSON, else TOML), and a missing extension is treated as
the native TOML format without sniffing. -/
theorem C8_amended_extension_dispatch :
    ∀ (filename content : String),
      (∀ e, pathExtension filename = some e →
        (lowerStr e = "json" →
          detectImportFormat filename content = .ok .json) ∧
        (lowerStr e = "toml" →
          detectImportFormat filename content = .ok .toml) ∧
        ((lowerStr e = "yaml" ∨ lowerStr e = "yml") →
          detectImportFormat filename content = .error .yamlUnsupported) ∧
        (lowerStr e ≠ "json" → lowerStr e ≠ "toml" → lowerStr e ≠ "yaml" →
          lowerStr e ≠ "yml" →
          detectImportFormat filename content = .ok (sniffFormat content))) ∧
      (pathExtension filename = none →
        detectImportFormat filename content = .ok .toml) := by
  intro filename content
  constructor
  · intro e he
    refine ⟨?_, ?_, ?_, ?_⟩
    · intro h
      simp [detectImportFormat, he, h]
    · intro h
      simp [detectImportFormat, he, h]
    · rintro (h | h) <;> simp [detectImportFormat, he, h]
    · intro hj ht hy1 hy2
      simp [detectImportFormat, he, hj, ht, hy1, hy2]
  · intro he
    simp [detectImportFormat, he,
      show lowerStr "toml" = "toml" from by decide, String.reduceEq]

/-- C8 witness: the unrecognized extension `txt` with JSON content is
content-sniffed and parsed as JSON. -/
theorem C8_amended_extension_dispatch_witness :
    pathExtension "config.txt" = some "txt" ∧
    detectImportFormat "config.txt" jsonSnippet = .ok (sniffFormat jsonSnippet) ∧
    sniffFormat jsonSnippet = .json :=
  ⟨by decide,
   ((C8_amended_extension_dispatch "config.txt" jsonSnippet).1 "txt"
      (by decide)).2.2.2 (by decide) (by decide) (by decide) (by decide),
   by decide⟩

/-! ## C9 — serialization round trip -/

/-- Decoding an encoded string map returns it unchanged. -/
theorem decodeStrMap_encodeStrMap (m : StrMap) :
    decodeStrMap (encodeStrMap m) = some m := by
  induction m with
  | nil => rfl
  | cons p t ih =>
    simp only [encodeStrMap] at ih
    simp [encodeStrMap, decodeStrMap, ih]

/-- `ShellConfig` round-trips through its document encoding. -/
theorem shellDecodeEncode (s : ShellConfig) :
    ShellConfig.decode s.encode = some s := by
  cases s
  simp [ShellConfig.encode, ShellConfig.decode, fieldBool, fieldStr,
    fieldNum, jLookup, String.reduceEq]

/-- `BehaviorConfig` round-trips through its document encoding. -/
theorem behaviorDecodeEncode (b : BehaviorConfig) :
    BehaviorConfig.decode b.encode = some b := by
  cases b
  simp [BehaviorConfig.encode, BehaviorConfig.decode, fieldBool, jLookup,
    String.reduceEq]

/-- `WindowsConfig` round-trips through its JSON encoding. -/
theorem winDecodeJsonEncode (w : WindowsConfig) :
    WindowsConfig.decodeJson w.encodeJson = some w := by
  cases w with
  | mk a b fm =>
    cases fm <;>
      simp [WindowsConfig.encodeJson, WindowsConfig.decodeJson, fieldBool,
        fieldOptStrJson, optFieldJson, jLookup, String.reduceEq]

/-- `WindowsConfig` round-trips through its TOML encoding. -/
theorem winDecodeTomlEncode (w : WindowsConfig) :
    WindowsConfig.decodeToml w.encodeToml = some w := by
  cases w with
  | mk a b fm =>
    cases fm <;>
      simp [WindowsConfig.encodeToml, WindowsConfig.decodeToml, fieldBool,
        fieldOptStrToml, optFieldToml, jLookup, String.reduceEq]

/-- `MacOSConfig` round-trips through its JSON encoding. -/
theorem macDecodeJsonEncode (m : MacOSConfig) :
    MacOSConfig.decodeJson m.encodeJson = some m := by
  cases m with
  | mk a b fm =>
    cases fm <;>
      simp [MacOSConfig.encodeJson, MacOSConfig.decodeJson, fieldBool,
        fieldOptStrJson, optFieldJson, jLookup, String.reduceEq]

/-- `MacOSConfig` round-trips through its TOML encoding. -/
theorem macDecodeTomlEncode (m : MacOSConfig) :
    MacOSConfig.decodeToml m.encodeToml = some m := by
  cases m with
  | mk a b fm =>
    cases fm <;>
      simp [MacOSConfig.encodeToml, MacOSConfig.decodeToml, fieldBool,
        fieldOptStrToml, optFieldToml, jLookup, String.reduceEq]

/-- `LinuxConfig` round-trips through its JSON encoding. -/
theorem linuxDecodeJsonEncode (l : LinuxConfig) :
    LinuxConfig.decodeJson l.encodeJson = some l := by
  cases l with
  | mk t d fm =>
    cases t <;> cases d <;> cases fm <;>
      simp [LinuxConfig.encodeJson, LinuxConfig.decodeJson,
        fieldOptStrJson, optFieldJson, jLookup, String.reduceEq]

/-- `LinuxConfig` round-trips through its TOML encoding. -/
theorem linuxDecodeTomlEncode (l : LinuxConfig) :
    LinuxConfig.decodeToml l.encodeToml = some l := by
  cases l with
  | mk t d fm =>
    cases t <;> cases d <;> cases fm <;>
      simp [LinuxConfig.encodeToml, LinuxConfig.decodeToml,
        fieldOptStrToml, optFieldToml, jLookup, String.reduceEq]

/-- `PlatformConfig` round-trips through its JSON encoding. -/
theorem platDecodeJsonEncode (p : PlatformConfig) :
    PlatformConfig.decodeJson p.encodeJson = some p := by
  cases p
  simp [PlatformConfig.encodeJson, PlatformConfig.decodeJson, fieldSub,
    jLookup, String.reduceEq, winDecodeJsonEncode,
    macDecodeJsonEncode, linuxDecodeJsonEncode]

/-- `PlatformConfig` round-trips through its TOML encoding. -/
theorem platDecodeTomlEncode (p : PlatformConfig) :
    PlatformConfig.decodeToml p.encodeToml = some p := by
  cases p
  simp [PlatformConfig.encodeToml, PlatformConfig.decodeToml, fieldSub,
    jLookup, String.reduceEq, winDecodeTomlEncode,
    macDecodeTomlEncode, linuxDecodeTomlEncode]

/-- Full JSON round trip: `from_json (to_json c) = c`. -/
theorem appFromJsonToJson (c : AppConfig) :
    AppConfig.fromJson c.toJson = some c := by
  cases c with
  | mk ver dfm sc sh bh pf fm =>
    cases dfm <;>
      simp [AppConfig.toJson, AppConfig.fromJson, fieldStr, fieldOptStrJson,
        fieldStrMap, fieldSub, optFieldJson, jLookup, String.reduceEq,
        decodeStrMap_encodeStrMap, shellDecodeEncode,
        behaviorDecodeEncode, platDecodeJsonEncode]

/-- Full TOML round trip: parsing back the saved document tree
reproduces the config. -/
theorem appFromTomlToToml (c : AppConfig) :
    AppConfig.fromToml c.toToml = some c := by
  cases c with
  | mk ver dfm sc sh bh pf fm =>
    cases dfm <;>
      simp [AppConfig.toToml, AppConfig.fromToml, fieldStr, fieldOptStrToml,
        fieldStrMap, fieldSub, optFieldToml, jLookup, String.reduceEq,
        decodeStrMap_encodeStrMap, shellDecodeEncode,
        behaviorDecodeEncode, platDecodeTomlEncode]

/-- C9: serializing and deserializing any configuration reproduces an
equal shortcuts mapping and equal behavior flags, in both the native
TOML format and the JSON variant (both round-trip the whole document). -/
theorem C9_roundtrip_both_formats :
    ∀ (c : AppConfig),
      (AppConfig.fromToml c.toToml).map AppConfig.shortcuts = some c.shortcuts ∧
      (AppConfig.fromToml c.toToml).map AppConfig.behavior = some c.behavior ∧
      (AppConfig.fromJson c.toJson).map AppConfig.shortcuts = some c.shortcuts ∧
      (AppConfig.fromJson c.toJson).map AppConfig.behavior = some c.behavior := by
  intro c
  rw [appFromTomlToToml, appFromJsonToJson]
  exact ⟨rfl, rfl, rfl, rfl⟩

end Navr
